import Mathlib

/-!
Shallow embedding of the `console_assistant` contact/notes organizer
(`maindz.py` and `dop2.py`) and proofs about its data model and algorithms.

Conventions of the embedding:
* Python exceptions become `Except PyErr`; each `PyErr` constructor stands for
  one `raise` site (all are `ValueError`s except `typeError`).
* Python `datetime` values are modelled as a proleptic-Gregorian day number
  (the same counting as `date.toordinal`) plus seconds into the day;
  `timedelta.days` is floor division of the total seconds by 86400, exactly
  as in CPython.
* `maindz.py` first imports `Phone`, `Email`, `Birthday`, `Notes` from
  `dop2.py` and then redefines classes of the same names; the later class
  statements shadow the imports, so `Record` and `AddressBook` use the
  `maindz` definitions.  Both variants are embedded where they differ
  (`MEmail` for the `maindz` class, `Dop2Email` for the `dop2` one).
-/

namespace DzWeb

/-- Error signals raised by the embedded code; each constructor corresponds to
one `raise` statement (or, for `typeError`, to an `int`-vs-`str` comparison). -/
inductive PyErr where
  | invalidPhoneFormat
  | invalidEmailFormat
  | invalidBirthdayValue
  | invalidDateFormat
  | phoneNotFound
  | typeError
deriving DecidableEq

/-! ## Calendar arithmetic (model of `datetime.date` / `datetime.datetime`) -/

/-- Gregorian leap-year rule, as used by `datetime`. -/
def isLeapYear (y : Nat) : Bool :=
  (y % 4 == 0 && y % 100 != 0) || y % 400 == 0

/-- Number of days in month `m` of year `y`. -/
def daysInMonth (y m : Nat) : Nat :=
  if m = 2 then (if isLeapYear y then 29 else 28)
  else if m = 4 ∨ m = 6 ∨ m = 9 ∨ m = 11 then 30
  else 31

/-- Days in the months `1, ..., m` of year `y`. -/
def monthsSum (y m : Nat) : Nat :=
  (List.range m).foldl (fun acc i => acc + daysInMonth y (i + 1)) 0

/-- Leap days among the years `1, ..., n`. -/
def leapsBefore (n : Nat) : Nat := n / 4 - n / 100 + n / 400

/-- Proleptic-Gregorian ordinal of the date `y-m-d`, with day 1 = 0001-01-01
(the same count as Python's `date.toordinal`). -/
def toDayNumber (y m d : Nat) : Nat :=
  365 * (y - 1) + leapsBefore (y - 1) + monthsSum y (m - 1) + d

/-- A calendar date, the payload of a parsed birthday. -/
structure PyDate where
  year : Nat
  month : Nat
  day : Nat
deriving DecidableEq

/-- The value returned by `datetime.today()`: a calendar date plus the time of
day, modelled as seconds since midnight (`0 ≤ secs < 86400`). -/
structure Today where
  year : Nat
  month : Nat
  day : Nat
  secs : Nat
deriving DecidableEq

/-- Total seconds of a `datetime` built from a day ordinal and seconds. -/
def dtSeconds (ord secs : Nat) : Int := (ord : Int) * 86400 + (secs : Int)

/-- Total seconds of the `datetime.today()` value. -/
def Today.dt (t : Today) : Int := dtSeconds (toDayNumber t.year t.month t.day) t.secs

/-! ## Field classes -/

/-- Model of the per-character test behind Python's `str.isdigit`: true of the
characters with Unicode numeric type Digit or Decimal — a strict superset of
the decimal digits.  The table covers the ASCII decimal digits together with
the further digit characters this development evaluates: the Latin-1
superscripts `¹²³`, the other superscript digits, the subscript digits, and
the Arabic-Indic, extended Arabic-Indic and Devanagari decimal digits. -/
def pyCharIsDigit (c : Char) : Bool :=
  c.isDigit
  || c.toNat == 0xB2 || c.toNat == 0xB3 || c.toNat == 0xB9
  || c.toNat == 0x2070
  || (decide (0x2074 ≤ c.toNat) && decide (c.toNat ≤ 0x2079))
  || (decide (0x2080 ≤ c.toNat) && decide (c.toNat ≤ 0x2089))
  || (decide (0x660 ≤ c.toNat) && decide (c.toNat ≤ 0x669))
  || (decide (0x6F0 ≤ c.toNat) && decide (c.toNat ≤ 0x6F9))
  || (decide (0x966 ≤ c.toNat) && decide (c.toNat ≤ 0x96F))

/-- Model of Python `str.isdigit`: the string is nonempty and every character
is a digit in the `str.isdigit` sense, decimal or not. -/
def pyIsdigit (s : String) : Bool :=
  !s.data.isEmpty && s.data.all pyCharIsDigit

/-- Model of `Phone.is_valid_phone` (identical in `maindz.py` and `dop2.py`):
`len(value) == 10 and value.isdigit()`. -/
def Phone.is_valid_phone (value : String) : Bool :=
  value.length == 10 && pyIsdigit value

/-- Model of `Phone.__init__`: raises `ValueError("Invalid phone number format")` unless
the value validates, otherwise stores the value unchanged. -/
def Phone.init (value : String) : Except PyErr String :=
  if Phone.is_valid_phone value then Except.ok value
  else Except.error PyErr.invalidPhoneFormat

/-- Model of `maindz.Email.is_valid_email`: `'@' in value` (substring containment of a
single character, i.e. membership of `'@'`). -/
def MEmail.is_valid_email (value : String) : Bool :=
  value.data.any (fun c => c == '@')

/-- Model of `maindz.Email.__init__` (the class `Record.add_email` uses): raises
`ValueError("Invalid email format")` unless `'@' in value`. -/
def MEmail.init (value : String) : Except PyErr String :=
  if MEmail.is_valid_email value then Except.ok value
  else Except.error PyErr.invalidEmailFormat

/-- Character class `[a-z]` under `re.IGNORECASE`. -/
def isLowerCI (c : Char) : Bool :=
  (decide ('a' ≤ c) && decide (c ≤ 'z')) || (decide ('A' ≤ c) && decide (c ≤ 'Z'))

/-- Character class `[a-z0-9_.]` under `re.IGNORECASE`. -/
def isLocalTail (c : Char) : Bool :=
  isLowerCI c || c.isDigit || c == '_' || c == '.'

/-- Character class `[a-z.]` under `re.IGNORECASE`. -/
def isDomChar (c : Char) : Bool := isLowerCI c || c == '.'

/-- After the dot of the domain: the regex tail `[.][a-z]{2,}` anchored at the
end of the string. -/
def afterDot : List Char → Bool
  | '.' :: tl => decide (2 ≤ tl.length) && tl.all isLowerCI
  | _ => false

/-- Split of the domain at position `k`: `[a-z.]` characters `0..k`, then the
final-dot tail. -/
def domAt (dom : List Char) (k : Nat) : Bool :=
  (dom.take (k + 1)).all isDomChar && afterDot (dom.drop (k + 1))

/-- The regex fragment `[a-z.]+[.][a-z]{2,}` against the whole list:
some split position works (regex backtracking tries them all). -/
def domMatch (dom : List Char) : Bool :=
  (List.range dom.length).any (domAt dom)

/-- After the local part: the literal `@` followed by the domain. -/
def afterLocal : List Char → Bool
  | '@' :: dom => domMatch dom
  | _ => false

/-- Split of the part after the first character at local-part length `k + 1`. -/
def atSplit (rest : List Char) (k : Nat) : Bool :=
  (rest.take (k + 1)).all isLocalTail && afterLocal (rest.drop (k + 1))

/-- The regex fragment `[a-z0-9_.]+[@][a-z.]+[.][a-z]{2,}`. -/
def splitMatch (rest : List Char) : Bool :=
  (List.range rest.length).any (atSplit rest)

/-- Model of `re.fullmatch` of `dop2.EMAIL_REGULAR`, i.e.
`[a-z][a-z0-9_.]+[@][a-z.]+[.][a-z]{2,}` with `re.IGNORECASE`, as an explicit
existential over the split positions the regex engine would try. -/
def emailMatch : List Char → Bool
  | [] => false
  | c :: rest => isLowerCI c && splitMatch rest

/-- Model of `dop2.Email.is_valid_email`: `fullmatch(EMAIL_REGULAR, value, IGNORECASE)`. -/
def Dop2Email.is_valid_email (value : String) : Bool := emailMatch value.data

/-- Model of `dop2.Email.__init__`: raises `ValueError("Invalid email format")` unless
the regex matches the whole string. -/
def Dop2Email.init (value : String) : Except PyErr String :=
  if Dop2Email.is_valid_email value then Except.ok value
  else Except.error PyErr.invalidEmailFormat

/-! ## Birthday parsing (`Record.set_birthday` and `maindz.Birthday`) -/

/-- A Python object that is a `date` or a `datetime`: `datetime` is a subclass
of `date`, so a plain `date` instance is not a `datetime` instance. -/
inductive DateLike where
  | plainDate (d : PyDate)
  | dateTime (d : PyDate)
deriving DecidableEq

/-- Model of `maindz.Birthday.__init__`: raises
`ValueError("Invalid birthday format. Use a datetime object.")` when the value
is not an instance of `datetime` (a `date` is not). -/
def MBirthday.init (v : DateLike) : Except PyErr DateLike :=
  match v with
  | DateLike.dateTime _ => Except.ok v
  | DateLike.plainDate _ => Except.error PyErr.invalidBirthdayValue

/-- Numeric value of a digit string. -/
def natOfDigits (cs : List Char) : Nat :=
  cs.foldl (fun a c => a * 10 + (c.toNat - 48)) 0

/-- Nonempty and all ASCII decimal digits. -/
def isAllDigits (cs : List Char) : Bool := !cs.isEmpty && cs.all Char.isDigit

/-- Split of a character list at every dash, keeping empty groups, as
`str.split('-')` does. -/
def splitDash : List Char → List (List Char)
  | [] => [[]]
  | c :: rest =>
    if c = '-' then [] :: splitDash rest
    else
      match splitDash rest with
      | g :: gs => (c :: g) :: gs
      | [] => [[c]]

/-- Model of `datetime.strptime(s, "%Y-%m-%d")` restricted to its observable outcome:
three dash-separated digit groups (year at most 4 digits, month and day at most
2), month in `1..12`, day in range for the month, year at least 1.  Returns the
parsed calendar date, `none` when `strptime` raises `ValueError`. -/
def parseYMD (s : String) : Option PyDate :=
  match splitDash s.data with
  | [yc, mc, dc] =>
    if isAllDigits yc && yc.length ≤ 4 && isAllDigits mc && mc.length ≤ 2
        && isAllDigits dc && dc.length ≤ 2 then
      let y := natOfDigits yc
      let m := natOfDigits mc
      let d := natOfDigits dc
      if 1 ≤ y && 1 ≤ m && m ≤ 12 && 1 ≤ d && d ≤ daysInMonth y m then
        some ⟨y, m, d⟩
      else none
    else none
  | _ => none

/-- Model of `Record.set_birthday` (`maindz.py`): parses the string with
`strptime(..., "%Y-%m-%d").date()` — producing a `date`, not a `datetime` —
then constructs `maindz.Birthday` from it inside a `try` whose
`except ValueError` re-raises `ValueError("Invalid birthday date format. Use
YYYY-MM-DD.")`.  Returns the stored `Birthday` payload on success. -/
def Record.set_birthday (s : String) : Except PyErr DateLike :=
  match parseYMD s with
  | none => Except.error PyErr.invalidDateFormat
  | some d =>
    match MBirthday.init (DateLike.plainDate d) with
    | Except.ok b => Except.ok b
    | Except.error _ => Except.error PyErr.invalidDateFormat

/-! ## Records -/

/-- Model of `maindz.Record`: name, phone values, optional email, optional birthday,
address slot (initially `None`), and a per-record notes list (never populated
by the program's commands). -/
structure Record where
  name : String
  phones : List String
  email : Option String
  birthday : Option PyDate
  address : Option String
  notes : List String
deriving DecidableEq

/-- Model of `Record.edit_phone`'s loop over the phone values: replace the first value
equal to `old_phone` by `new_phone` (no validation of `new_phone`), raise
`ValueError(f"Phone {old_phone} not found in the record")` when no value
matches. -/
def editPhoneList : List String → String → String → Except PyErr (List String)
  | [], _, _ => Except.error PyErr.phoneNotFound
  | p :: ps, o, n =>
    if p == o then Except.ok (n :: ps)
    else (editPhoneList ps o n).map (fun rest => p :: rest)

/-! ## Birthday scheduler (`get_upcoming_birthdays`) -/

/-- Inclusion test of one record, exactly as in the loop body of
`get_upcoming_birthdays`: build `datetime(today.year, month, day)` (midnight);
if it is `<` the full `today` datetime, rebuild with `today.year + 1`;
`delta.days` is floor division of the second difference by 86400; keep the
record iff `0 <= delta.days <= days_count`.  The source reads
`record.birthday.month` and `record.birthday.day`, so the birthday attribute
is modelled as the calendar date those accesses deliver.  Python's `datetime`
constructor would raise for February 29 in a non-leap target year
(`toDayNumber` is total there); no claim touches that open edge case. -/
def upcomingKeeps (today : Today) (days_count : Int) (b : PyDate) : Bool :=
  let todayDt : Int := today.dt
  let nb : Int := dtSeconds (toDayNumber today.year b.month b.day) 0
  let nb : Int :=
    if nb < todayDt then dtSeconds (toDayNumber (today.year + 1) b.month b.day) 0
    else nb
  let deltaDays : Int := Int.fdiv (nb - todayDt) 86400
  decide (0 ≤ deltaDays) && decide (deltaDays ≤ days_count)

/-- Model of `get_upcoming_birthdays`: filter the records (in book order) with a set
birthday by the inclusion test; records without a birthday are skipped. -/
def get_upcoming_birthdays (records : List Record) (today : Today)
    (days_count : Int) : List Record :=
  records.filter (fun r =>
    match r.birthday with
    | none => false
    | some b => upcomingKeeps today days_count b)

/-- Python `int(s)` for an optional leading minus sign followed by ASCII
digits; `none` when `int` raises `ValueError`. -/
def parsePyInt (s : String) : Option Int :=
  match s.data with
  | '-' :: ds => if isAllDigits ds then some (-(natOfDigits ds : Int)) else none
  | ds => if isAllDigits ds then some ((natOfDigits ds : Int)) else none

/-- Model of `fun_upcoming_birthdays` for a given input string: `int(input)` and the
negativity check run inside a `try` whose `except ValueError` only prints
"Invalid input. Please enter a non-negative integer." — control then falls
through to `get_upcoming_birthdays` with the (possibly negative) integer.
The result is the pair (was the invalid-input message printed, the list the
function goes on to display).  When `int(input)` fails, `days_count` is still
the string, and the chained comparison `0 <= delta.days <= days_count` raises
`TypeError` on the first record with a birthday (the rollover construction
makes `delta.days` nonnegative, so the second comparison is always reached);
with no birthdays the loop never compares and the empty list is shown. -/
def fun_upcoming_birthdays (records : List Record) (today : Today)
    (input : String) : Except PyErr (Bool × List Record) :=
  match parsePyInt input with
  | some n => Except.ok (decide (n < 0), get_upcoming_birthdays records today n)
  | none =>
    if records.any (fun r => r.birthday.isSome) then Except.error PyErr.typeError
    else Except.ok (true, [])

/-! ## Address book (directory) -/

/-- Model of `maindz.Notes` (the class `maindz.NoteManager.add_note` uses, shadowing the
`dop2` import) holds only a text, so `AddressBook`'s note store is a list of
texts.  `data` models the `UserDict` mapping in insertion order. -/
structure AddressBook where
  data : List (String × Record)
  notes : List String
deriving DecidableEq

/-- Model of `AddressBook.save_to_file`: pickles `self.data` only — the note manager is
not written.  Pickling round-trips the value, so the snapshot is modelled as
the serialized mapping itself. -/
def save_to_file (book : AddressBook) : List (String × Record) := book.data

/-- Model of `AddressBook.load_from_file`: unpickles the file into `self.data`; every
other attribute of the target book (its note manager) is left as it was. -/
def load_from_file (book : AddressBook) (snapshot : List (String × Record)) :
    AddressBook :=
  ⟨snapshot, book.notes⟩

/-- Model of `int(query[0])` succeeds iff the string is nonempty and its first character
is a digit; on the empty string `query[0]` raises `IndexError`, which the
`except Exception` also catches, selecting the name-search branch. -/
def firstCharInt (query : String) : Bool :=
  match query.data with
  | [] => false
  | c :: _ => c.isDigit

/-- Lower-cased characters of a string (`str.lower`). -/
def lowerChars (s : String) : List Char := s.data.map Char.toLower

/-- Whether `needle` is a leading segment of `hay`. -/
def leadsWith : List Char → List Char → Bool
  | [], _ => true
  | _ :: _, [] => false
  | a :: as, b :: bs => a == b && leadsWith as bs

/-- Whether `needle` occurs contiguously inside `hay` (Python's `in` on
strings). -/
def containsSeq (needle : List Char) : List Char → Bool
  | [] => leadsWith needle []
  | c :: rest => leadsWith needle (c :: rest) || containsSeq needle rest

/-- Case-insensitive substring test `query.lower() in s.lower()`. -/
def subMatch (query s : String) : Bool :=
  containsSeq (lowerChars query) (lowerChars s)

/-- Model of `AddressBook.search`: if the first character of the query parses as an
integer, collect each record once per phone value containing the query
(case-insensitively); otherwise collect the records whose name contains the
query.  Only one mode runs per call. -/
def search (data : List (String × Record)) (query : String) : List Record :=
  if firstCharInt query then
    (data.map (fun nr =>
      (nr.2.phones.filter (fun ph => subMatch query ph)).map (fun _ => nr.2))).flatten
  else
    (data.filter (fun nr => subMatch query nr.1)).map (fun nr => nr.2)

/-! ## Note manager (`dop2.NoteManager`) -/

/-- Model of `dop2.Notes`: text, author and tags. -/
structure NotesD where
  text : String
  author : String
  tags : List String
deriving DecidableEq

/-- Observable outcome of `dop2.NoteManager.delete_note`: the notes list after
the call, the note named by the "deleted" message (`none` when no such message
is printed), whether "Invalid note index." was printed, and the Python return
value — the method has no `return` statement, so it is always `None`. -/
structure DeleteOut where
  notes : List NotesD
  deletedMsg : Option NotesD
  invalidMsg : Bool
  returned : Option NotesD
deriving DecidableEq

/-- Model of `dop2.NoteManager.delete_note`: when `1 <= index <= len(self.notes)` it
pops the note at `index - 1` and prints it; otherwise it prints
"Invalid note index.".  Neither branch raises or returns a value.  The result
is wrapped in `Except` to record that the body contains no `raise`. -/
def delete_note (notes : List NotesD) (index : Int) :
    Except PyErr DeleteOut :=
  if 1 ≤ index ∧ index ≤ (notes.length : Int) then
    let k := (index - 1).toNat
    Except.ok ⟨notes.eraseIdx k, notes.get? k, false, none⟩
  else
    Except.ok ⟨notes, none, true, none⟩

/-! ## Pagination iterator (`AddressBookIterator`) -/

/-- State of an `AddressBookIterator`: the underlying record list (the book's
`data.values()` in order), the page size and the current page counter. -/
structure IterState (α : Type) where
  data : List α
  items_per_page : Nat
  current_page : Nat
deriving DecidableEq

/-- Model of `AddressBookIterator.__next__`: slice
`list(values)[page*size : page*size + size]`; raise `StopIteration` (here:
`none`) when the slice is empty — without advancing the page — otherwise
advance the page and return the slice. -/
def iterNext (st : IterState α) : Option (List α × IterState α) :=
  let start := st.current_page * st.items_per_page
  let records := (st.data.drop start).take st.items_per_page
  if records.isEmpty then none
  else some (records, ⟨st.data, st.items_per_page, st.current_page + 1⟩)

/-- Drive the iterator until `StopIteration` (or until the fuel runs out),
collecting the yielded batches and the final state. -/
def runIter : Nat → IterState α → List (List α) × IterState α
  | 0, st => ([], st)
  | fuel + 1, st =>
    match iterNext st with
    | none => ([], st)
    | some (b, st2) =>
      let r := runIter fuel st2
      (b :: r.1, r.2)

/-- Fuel-indexed chunking of a list into pieces of `p` elements (the last piece
shorter when `p` does not divide the length); the reference shape the iterator
is proved to produce. -/
def chunksF : Nat → Nat → List α → List (List α)
  | 0, _, _ => []
  | fuel + 1, p, l =>
    if l.isEmpty then [] else l.take p :: chunksF fuel p (l.drop p)

/-- A full fresh-iterator run over a book's records with page size `p`:
`list.length` fuel is enough to reach exhaustion. -/
def runBook (l : List α) (p : Nat) : List (List α) × IterState α :=
  runIter l.length ⟨l, p, 0⟩

/-! ## Spec-side definitions (for refinement comparisons) -/

/-- Phone validity in the words of the specification: length exactly 10 and
every character a decimal digit. -/
def specPhoneValid (s : String) : Prop :=
  s.length = 10 ∧ ∀ c ∈ s.data, c.isDigit

instance specPhoneValidDecidable (s : String) : Decidable (specPhoneValid s) :=
  decidable_of_iff (s.length = 10 ∧ ∀ c ∈ s.data, c.isDigit) Iff.rfl

/-- Replacement of the first occurrence, in the words of the specification of
`edit_phone`: finds the first phone equal to `old_raw` and replaces its
value. -/
def replaceFirst : List String → String → String → List String
  | [], _, _ => []
  | p :: ps, o, n => if p == o then n :: ps else p :: replaceFirst ps o n

/-! ## Concrete data for witnesses and counterexamples -/

/-- A record whose birthday month/day is June 15. -/
def recAnn : Record := ⟨"Ann", [], none, some ⟨1990, 6, 15⟩, none, []⟩

/-- A record whose birthday month/day is January 2 (the year-rollover case). -/
def recJan : Record := ⟨"Jan", [], none, some ⟨1995, 1, 2⟩, none, []⟩

/-- A record without a birthday. -/
def recBob : Record := ⟨"Bob", ["0123456789"], none, none, none, []⟩

/-- A third record, with an email and an address. -/
def recCid : Record := ⟨"Cid", [], some "cid@mail.com", none, some "street 1", []⟩

/-- The clock value 2024-06-15 12:00:00. -/
def todayNoon : Today := ⟨2024, 6, 15, 43200⟩

/-- The clock value 2024-06-15 00:00:00. -/
def todayMidnight : Today := ⟨2024, 6, 15, 0⟩

/-- An empty, freshly constructed address book. -/
def emptyBook : AddressBook := ⟨[], []⟩

/-- A directory with 3 records and 2 notes. -/
def book3 : AddressBook :=
  ⟨[("Ann", recAnn), ("Bob", recBob), ("Cid", recCid)], ["wish one", "wish two"]⟩

/-- The note produced by `notes.add("alice", "hi", [])`. -/
def noteHi : NotesD := ⟨"hi", "alice", []⟩

/-- A second note. -/
def noteYo : NotesD := ⟨"yo", "bob", ["tag"]⟩

/-- Twelve records, for the pagination witness. -/
def rec12 : List Record :=
  (List.range 12).map (fun i => ⟨toString i, [], none, none, none, []⟩)

/-! ## Theorems -/

/-- C1: the claim says `set_birthday` succeeds on every well-formed
`YYYY-MM-DD` date string and stores the date.  In the code it never succeeds:
`strptime(...).date()` yields a `date` object, `maindz.Birthday.__init__`
rejects everything that is not a `datetime` instance with a `ValueError`, and
`set_birthday`'s `except ValueError` turns that into the format error — so
every input, the well-formed date `"1990-06-15"` included (second conjunct: it
parses), raises `InvalidDateFormat`. -/
theorem claim_C1_set_birthday_always_fails :
    (∀ s : String,
      Record.set_birthday s = Except.error PyErr.invalidDateFormat) ∧
    parseYMD "1990-06-15" = some ⟨1990, 6, 15⟩ := by
  refine ⟨fun s => ?_, rfl⟩
  unfold Record.set_birthday
  cases parseYMD s <;> rfl

/-- C2: evaluation of `get_upcoming_birthdays` around the claimed behavior.
With the clock at noon of the record's own birthday and `days_count = 0` the
record is excluded (the midnight `datetime(today.year, m, d)` compares less
than `datetime.today()`, so the birthday is rolled to next year and
`delta.days = 364`), although the claim includes it; only at exactly midnight
is it included.  Likewise the claimed rollover example (today 2024-12-30,
birthday January 2) behaves as claimed at midnight — included for
`days_count = 5`, excluded for `days_count = 2` — but one hour past midnight it
is already included for `days_count = 2` because `delta.days` floors to 2. -/
theorem claim_C2_upcoming_depends_on_time_of_day :
    get_upcoming_birthdays [recAnn] todayNoon 0 = [] ∧
    get_upcoming_birthdays [recAnn] todayMidnight 0 = [recAnn] ∧
    get_upcoming_birthdays [recJan] ⟨2024, 12, 30, 0⟩ 5 = [recJan] ∧
    get_upcoming_birthdays [recJan] ⟨2024, 12, 30, 0⟩ 2 = [] ∧
    get_upcoming_birthdays [recJan] ⟨2024, 12, 30, 3600⟩ 2 = [recJan] :=
  ⟨rfl, rfl, rfl, rfl, rfl⟩

/-- C3: the claim says the upcoming-birthdays query fails with `NegativeDays`
for `days_count = -1`.  In `fun_upcoming_birthdays` the guard does raise a
`ValueError`, but its own `except ValueError` catches it, merely prints a
message, and control falls through to `get_upcoming_birthdays` with `-1`,
which returns the empty list — a normal result, not a failure. -/
theorem claim_C3_negative_days_not_a_failure :
    fun_upcoming_birthdays [recAnn] todayNoon "-1" = Except.ok (true, []) :=
  rfl

/-- C4 counterexample: `"a@b"` does not match the specified email regex, yet
the `Email` class actually used by `Record` (the one defined in `maindz.py`,
which shadows the `dop2` import) accepts it, because its validity test is just
`'@' in value`; the `dop2` class rejects it. -/
theorem claim_C4_cex_at_atb :
    MEmail.init "a@b" = Except.ok "a@b" ∧
    emailMatch "a@b".data = false ∧
    Dop2Email.init "a@b" = Except.error PyErr.invalidEmailFormat :=
  ⟨rfl, rfl, rfl⟩

/-- C4 (amended): construction of the `maindz` `Email` (the class `Record`
uses) succeeds exactly when the string contains `'@'`; construction of the
`dop2` `Email` succeeds exactly when the string fullmatches the case-insensitive
pattern; and `Email.construct("bad")` fails in both classes. -/
theorem claim_C4_email_validity :
    (∀ s : String,
      (MEmail.init s = Except.ok s ↔ ∃ c ∈ s.data, c = '@') ∧
      (Dop2Email.init s = Except.ok s ↔ emailMatch s.data = true)) ∧
    MEmail.init "bad" = Except.error PyErr.invalidEmailFormat ∧
    Dop2Email.init "bad" = Except.error PyErr.invalidEmailFormat := by
  refine ⟨fun s => ⟨?_, ?_⟩, rfl, rfl⟩
  · unfold MEmail.init MEmail.is_valid_email
    by_cases h : s.data.any (fun c => c == '@')
    · rw [if_pos h]
      simp only [List.any_eq_true, beq_iff_eq] at h
      exact iff_of_true rfl h
    · rw [if_neg h]
      simp only [List.any_eq_true, beq_iff_eq] at h
      exact iff_of_false (by simp) h
  · unfold Dop2Email.init Dop2Email.is_valid_email
    by_cases h : emailMatch s.data
    · rw [if_pos h]
      exact iff_of_true rfl h
    · rw [if_neg h]
      exact iff_of_false (by simp) (by simpa using h)

/-- C5 counterexample: `edit_phone` replaces a matching phone by `"bad"`
without any validation, so a record's phone field ends up holding a value that
`Phone.is_valid_phone` rejects — contradicting both the claimed `InvalidFormat`
failure and the claimed invariant. -/
theorem claim_C5_cex_stores_invalid :
    editPhoneList ["1234567890"] "1234567890" "bad" = Except.ok ["bad"] ∧
    Phone.is_valid_phone "bad" = false :=
  ⟨rfl, rfl⟩

/-- C5 (amended): `edit_phone` replaces the first stored phone equal to
`old_raw` with `new_raw` without validating it — its only failure is
`PhoneNotFound` when no stored phone equals `old_raw` — so invalid values can
be stored. -/
theorem claim_C5_edit_phone_no_validation (phones : List String)
    (o n : String) :
    editPhoneList phones o n =
      if o ∈ phones then Except.ok (replaceFirst phones o n)
      else Except.error PyErr.phoneNotFound := by
  induction phones with
  | nil => simp [editPhoneList]
  | cons p ps ih =>
    by_cases h : p = o
    · subst h
      simp [editPhoneList, replaceFirst]
    · have hb : (p == o) = false := beq_eq_false_iff_ne.mpr h
      have h2 : ¬ o = p := fun e => h e.symm
      simp only [editPhoneList, replaceFirst, hb, Bool.false_eq_true,
        if_false, ih, List.mem_cons, h2, false_or]
      by_cases hc : o ∈ ps <;> simp [hc, Except.map]

/-- Auxiliary: every ASCII decimal digit passes the `str.isdigit` test. -/
theorem pyCharIsDigit_of_isDigit (c : Char) (h : c.isDigit = true) :
    pyCharIsDigit c = true := by
  simp [pyCharIsDigit, h]

/-- C8 counterexample: Python's `str.isdigit` is true of the superscript-two
character although it is not a decimal digit, so the ten-character string of
superscript twos is accepted by `Phone` construction even though it contains
no decimal digit — falsifying the claimed equivalence, which demands an
`InvalidFormat` failure for every string containing a non-decimal-digit
character. -/
theorem claim_C8_cex_superscripts :
    Phone.init "²²²²²²²²²²" = Except.ok "²²²²²²²²²²" ∧
    ¬ specPhoneValid "²²²²²²²²²²" :=
  ⟨rfl, by decide⟩

/-- C8 (amended): `Phone` construction succeeds, storing the string unchanged,
exactly when the string has length 10 and every character is a digit in the
sense of Python's `str.isdigit`, and fails with the invalid-format error
exactly otherwise; since `str.isdigit` accepts a superset of the decimal
digits, every 10-character decimal-digit string is in particular accepted
(second component). -/
theorem claim_C8_phone_isdigit_validity :
    (∀ s : String,
      (Phone.init s = Except.ok s ↔
        s.length = 10 ∧ ∀ c ∈ s.data, pyCharIsDigit c) ∧
      (Phone.init s = Except.error PyErr.invalidPhoneFormat ↔
        ¬ (s.length = 10 ∧ ∀ c ∈ s.data, pyCharIsDigit c))) ∧
    (∀ s : String, specPhoneValid s → Phone.init s = Except.ok s) := by
  have key : ∀ s : String, Phone.is_valid_phone s = true ↔
      s.length = 10 ∧ ∀ c ∈ s.data, pyCharIsDigit c := by
    intro s
    unfold Phone.is_valid_phone pyIsdigit
    constructor
    · intro h
      simp only [Bool.and_eq_true, beq_iff_eq, List.all_eq_true] at h
      exact ⟨h.1, h.2.2⟩
    · intro h
      have hlen : s.data.length = 10 := h.1
      have hne : s.data ≠ [] := by
        intro hnil
        rw [hnil] at hlen
        simp at hlen
      simp only [Bool.and_eq_true, beq_iff_eq, List.all_eq_true,
        Bool.not_eq_true', List.isEmpty_eq_false_iff_exists_mem]
      refine ⟨h.1, ?_, h.2⟩
      obtain ⟨c, hc⟩ := List.exists_mem_of_ne_nil s.data hne
      exact ⟨c, hc⟩
  constructor
  · intro s
    unfold Phone.init
    by_cases h : Phone.is_valid_phone s
    · have hs := (key s).mp h
      rw [if_pos h]
      exact ⟨iff_of_true rfl hs, iff_of_false (by simp) (not_not_intro hs)⟩
    · have hs : ¬ (s.length = 10 ∧ ∀ c ∈ s.data, pyCharIsDigit c) :=
        fun hv => h ((key s).mpr hv)
      rw [if_neg h]
      exact ⟨iff_of_false (by simp) hs, iff_of_true rfl hs⟩
  · intro s hs
    unfold Phone.init
    rw [if_pos ((key s).mpr
      ⟨hs.1, fun c hc => pyCharIsDigit_of_isDigit c (hs.2 c hc)⟩)]

/-- C8 witness: the decimal-digit string `"0123456789"` is accepted and stored
unchanged. -/
theorem claim_C8_witness :
    Phone.init "0123456789" = Except.ok "0123456789" :=
  claim_C8_phone_isdigit_validity.2 "0123456789" (by decide)

/-- C6 counterexample: `delete(1)` on the empty store returns normally (only
printing "Invalid note index.") instead of failing with `IndexOutOfRange`, and
after `add("alice","hi",[])` a `delete(1)` does empty the store but returns
`None` — the deleted note is only printed — instead of returning the note. -/
theorem claim_C6_cex_no_failure_no_return :
    delete_note [] 1 = Except.ok ⟨[], none, true, none⟩ ∧
    delete_note [noteHi] 1 = Except.ok ⟨[], some noteHi, false, none⟩ :=
  ⟨rfl, rfl⟩

/-- C6 (amended): with `1 <= i <= n`, `delete_note` removes the `i`-th note,
leaves the remaining notes in order (the list becomes the notes before it plus
the notes after it) and prints the removed note, but returns `None`; with `i`
out of range it leaves the store unchanged and prints "Invalid note index."
rather than failing; no branch raises. -/
theorem claim_C6_delete_note (notes : List NotesD) (i : Int) :
    (1 ≤ i ∧ i ≤ (notes.length : Int) →
      delete_note notes i =
        Except.ok ⟨notes.take (i - 1).toNat ++ notes.drop ((i - 1).toNat + 1),
          notes.get? (i - 1).toNat, false, none⟩) ∧
    (¬ (1 ≤ i ∧ i ≤ (notes.length : Int)) →
      delete_note notes i = Except.ok ⟨notes, none, true, none⟩) := by
  constructor
  · intro h
    unfold delete_note
    rw [if_pos h]
    show Except.ok (DeleteOut.mk (notes.eraseIdx (i - 1).toNat)
      (notes.get? (i - 1).toNat) false none) = _
    rw [List.eraseIdx_eq_take_drop_succ]
  · intro h
    unfold delete_note
    rw [if_neg h]

/-- C6 witness: deleting the first of two notes keeps the second, prints the
first, and returns `None`. -/
theorem claim_C6_witness :
    delete_note [noteHi, noteYo] 1 =
      Except.ok ⟨[noteYo], some noteHi, false, none⟩ :=
  (claim_C6_delete_note [noteHi, noteYo] 1).1 (by decide)

/-- C7 counterexample: round-tripping the directory with 3 records and 2 notes
through `save_to_file`/`load_from_file` does not reproduce an equal directory:
`save_to_file` pickles only the record mapping, so the notes are lost. -/
theorem claim_C7_cex_notes_lost :
    load_from_file emptyBook (save_to_file book3) ≠ book3 := by
  intro h
  have h2 := congrArg AddressBook.notes h
  simp [load_from_file, save_to_file, emptyBook, book3] at h2

/-- C7 (amended): serializing with `save_to_file` and deserializing into a
fresh directory reproduces the records exactly (same keys and field values in
order), but the restored note store is empty, whatever notes the serialized
directory had. -/
theorem claim_C7_roundtrip_records_only (b : AddressBook) :
    (load_from_file emptyBook (save_to_file b)).data = b.data ∧
    (load_from_file emptyBook (save_to_file b)).notes = [] :=
  ⟨rfl, rfl⟩

/-- Auxiliary: the empty character list occurs in every character list. -/
theorem containsSeq_nil (hay : List Char) : containsSeq [] hay = true := by
  cases hay <;> rfl

/-- C10: searching with the empty query never fails and returns every record
of the directory in iteration order — `int(query[0])` raises on the empty
string, selecting the name branch, and the empty string is a substring of
every name. -/
theorem claim_C10_empty_search_returns_all (data : List (String × Record)) :
    search data "" = data.map (fun nr => nr.2) := by
  unfold search
  rw [show firstCharInt "" = false from rfl]
  simp only [Bool.false_eq_true, if_false]
  have hall : ∀ nr : String × Record, subMatch "" nr.1 = true := by
    intro nr
    unfold subMatch lowerChars
    exact containsSeq_nil _
  rw [List.filter_eq_self.mpr fun nr _ => hall nr]

/-- Auxiliary: chunking the empty list gives no chunks. -/
theorem chunksF_nil (fuel p : Nat) : chunksF fuel p ([] : List α) = [] := by
  cases fuel <;> rfl

/-- Auxiliary: one unfolding step of `chunksF` on a nonempty list. -/
theorem chunksF_cons_of_ne (fuel p : Nat) (l : List α) (hl : l ≠ []) :
    chunksF (fuel + 1) p l = l.take p :: chunksF fuel p (l.drop p) := by
  have hstep : chunksF (fuel + 1) p l =
      if l.isEmpty then [] else l.take p :: chunksF fuel p (l.drop p) := rfl
  rw [hstep, if_neg (by simpa [List.isEmpty_iff] using hl)]

/-- Auxiliary: with fuel left, a nonempty list yields at least one chunk. -/
theorem chunksF_ne_nil (fuel p : Nat) (l : List α) (hl : l ≠ [])
    (hf : 0 < fuel) : chunksF fuel p l ≠ [] := by
  cases fuel with
  | zero => omega
  | succ f =>
    rw [chunksF_cons_of_ne f p l hl]
    exact List.cons_ne_nil _ _

/-- Auxiliary: the chunks concatenate back to the original list. -/
theorem chunksF_flatten (p : Nat) (hp : 0 < p) :
    ∀ fuel (l : List α), l.length ≤ fuel → (chunksF fuel p l).flatten = l := by
  intro fuel
  induction fuel with
  | zero =>
    intro l hl
    have hn : l = [] := List.length_eq_zero.mp (Nat.le_zero.mp hl)
    subst hn
    rfl
  | succ f ih =>
    intro l hl
    by_cases hn : l = []
    · subst hn
      rw [chunksF_nil]
      rfl
    · rw [chunksF_cons_of_ne f p l hn, List.flatten_cons,
        ih (l.drop p) (by rw [List.length_drop]; omega)]
      exact List.take_append_drop p l

/-- Auxiliary: the number of chunks is the length divided by `p`, rounded
up. -/
theorem chunksF_length (p : Nat) (hp : 0 < p) :
    ∀ fuel (l : List α), l.length ≤ fuel →
      (chunksF fuel p l).length = (l.length + p - 1) / p := by
  intro fuel
  induction fuel with
  | zero =>
    intro l hl
    have hn : l = [] := List.length_eq_zero.mp (Nat.le_zero.mp hl)
    subst hn
    simp [chunksF]
    rw [Nat.div_eq_of_lt (by omega)]
  | succ f ih =>
    intro l hl
    by_cases hn : l = []
    · subst hn
      rw [chunksF_nil]
      simp
      rw [Nat.div_eq_of_lt (by omega)]
    · have hlen : 1 ≤ l.length := List.length_pos.mpr hn
      rw [chunksF_cons_of_ne f p l hn]
      by_cases hle : l.length ≤ p
      · have hdrop : l.drop p = [] := List.drop_eq_nil_of_le hle
        rw [hdrop, chunksF_nil]
        simp only [List.length_cons, List.length_nil]
        symm
        exact Nat.div_eq_of_lt_le (by omega) (by omega)
      · push_neg at hle
        have ihr := ih (l.drop p) (by rw [List.length_drop]; omega)
        rw [List.length_drop] at ihr
        simp only [List.length_cons]
        rw [ihr]
        have e1 : l.length - p + p - 1 = l.length - 1 := by omega
        have e2 : l.length + p - 1 = l.length - 1 + p := by omega
        rw [e1, e2, Nat.add_div_right _ hp]

/-- Auxiliary: every chunk but the last has exactly `p` elements, and the last
chunk has `length % p` elements (or `p` when `p` divides the length). -/
theorem chunksF_sizes (p : Nat) (hp : 0 < p) :
    ∀ fuel (l : List α), l.length ≤ fuel →
      (∀ b ∈ (chunksF fuel p l).dropLast, b.length = p) ∧
      (∀ b, (chunksF fuel p l).getLast? = some b →
        b.length = if l.length % p = 0 then p else l.length % p) := by
  intro fuel
  induction fuel with
  | zero =>
    intro l hl
    have hn : l = [] := List.length_eq_zero.mp (Nat.le_zero.mp hl)
    subst hn
    exact ⟨by simp [chunksF], by simp [chunksF]⟩
  | succ f ih =>
    intro l hl
    by_cases hn : l = []
    · subst hn
      rw [chunksF_nil]
      exact ⟨by simp, by simp⟩
    · have hlen : 1 ≤ l.length := List.length_pos.mpr hn
      rw [chunksF_cons_of_ne f p l hn]
      by_cases hle : l.length ≤ p
      · have hdrop : l.drop p = [] := List.drop_eq_nil_of_le hle
        rw [hdrop, chunksF_nil]
        constructor
        · intro b hb
          simp at hb
        · intro b hb
          simp at hb
          subst hb
          rw [List.length_take, Nat.min_eq_right hle]
          by_cases he : l.length = p
          · rw [he]
            simp
          · rw [Nat.mod_eq_of_lt (by omega), if_neg (by omega)]
      · push_neg at hle
        have hdropne : l.drop p ≠ [] := by
          intro hd
          have hdl := congrArg List.length hd
          rw [List.length_drop] at hdl
          simp at hdl
          omega
        have hfuel2 : (l.drop p).length ≤ f := by
          rw [List.length_drop]
          omega
        have hposf : 0 < f := by
          have := List.length_pos.mpr hdropne
          omega
        have ihr := ih (l.drop p) hfuel2
        obtain ⟨r, rs, hr⟩ :=
          List.exists_cons_of_ne_nil (chunksF_ne_nil f p (l.drop p) hdropne hposf)
        rw [hr]
        constructor
        · intro b hb
          rw [List.dropLast_cons₂] at hb
          rcases List.mem_cons.mp hb with hb1 | hb2
          · subst hb1
            rw [List.length_take]
            exact Nat.min_eq_left (by omega)
          · have h1 := ihr.1
            rw [hr] at h1
            exact h1 b hb2
        · intro b hb
          rw [List.getLast?_cons_cons] at hb
          have h2 := ihr.2
          rw [hr] at h2
          have hbl := h2 b hb
          rw [List.length_drop] at hbl
          have hmod : l.length % p = (l.length - p) % p := by
            conv_lhs => rw [show l.length = l.length - p + p by omega]
            rw [Nat.add_mod_right]
          rw [hmod]
          exact hbl

/-- Auxiliary: a fueled iterator run starting at page `k` yields exactly the
chunks of the records from index `k * p` on, and stops with the page counter
advanced by the number of chunks. -/
theorem runIter_eq (p : Nat) (hp : 0 < p) :
    ∀ fuel k (l : List α), (l.drop (k * p)).length ≤ fuel →
      runIter fuel ⟨l, p, k⟩ =
        (chunksF fuel p (l.drop (k * p)),
         ⟨l, p, k + (chunksF fuel p (l.drop (k * p))).length⟩) := by
  intro fuel
  induction fuel with
  | zero =>
    intro k l hl
    have hnil : l.drop (k * p) = [] := List.length_eq_zero.mp (Nat.le_zero.mp hl)
    rw [runIter, hnil, chunksF_nil]
    simp
  | succ f ih =>
    intro k l hl
    by_cases hlne : l.drop (k * p) = []
    · have hnext : iterNext (⟨l, p, k⟩ : IterState α) = none := by
        simp [iterNext, hlne]
      rw [runIter, hnext, hlne, chunksF_nil]
      simp
    · have hemp : (((l.drop (k * p)).take p).isEmpty) = false := by
        simp only [List.isEmpty_eq_false, ne_eq, List.take_eq_nil_iff]
        intro hc
        rcases hc with hc | hc
        · omega
        · exact hlne hc
      have hnext : iterNext (⟨l, p, k⟩ : IterState α) =
          some ((l.drop (k * p)).take p, ⟨l, p, k + 1⟩) := by
        simp [iterNext, hemp]
      rw [runIter, hnext]
      show (((l.drop (k * p)).take p) :: (runIter f ⟨l, p, k + 1⟩).1,
        (runIter f ⟨l, p, k + 1⟩).2) = _
      have hdd : l.drop ((k + 1) * p) = (l.drop (k * p)).drop p := by
        rw [List.drop_drop, Nat.succ_mul]
      have hfuel2 : (l.drop ((k + 1) * p)).length ≤ f := by
        rw [hdd, List.length_drop]
        have h1 := List.length_pos.mpr hlne
        omega
      have ihr := ih (k + 1) l hfuel2
      rw [ihr, chunksF_cons_of_ne f p _ hlne, hdd]
      simp only [Prod.mk.injEq, IterState.mk.injEq, List.length_cons,
        true_and]
      omega

/-- C9: a fresh pagination iterator with page size `p > 0` over `n` records
yields batches that concatenate to the record list in order; there are exactly
`ceil(n / p)` of them; every batch except the last has `p` records and the
last has `n mod p` (or `p` when `p` divides `n`); the iterator then signals
exhaustion (and, its state being unchanged by an exhausted call, does so on
every further call); and a fresh iterator starts again with the first `p`
records. -/
theorem claim_C9_pagination (l : List Record) (p : Nat) (hp : 0 < p) :
    (runBook l p).1.flatten = l ∧
    (runBook l p).1.length = (l.length + p - 1) / p ∧
    (∀ b ∈ (runBook l p).1.dropLast, b.length = p) ∧
    (∀ b, (runBook l p).1.getLast? = some b →
      b.length = if l.length % p = 0 then p else l.length % p) ∧
    iterNext (runBook l p).2 = none ∧
    (l ≠ [] → iterNext ⟨l, p, 0⟩ = some (l.take p, ⟨l, p, 1⟩)) := by
  have h0 : l.drop (0 * p) = l := by simp
  have hrun := runIter_eq p hp l.length 0 l (by rw [h0])
  rw [h0] at hrun
  unfold runBook
  rw [hrun]
  refine ⟨chunksF_flatten p hp l.length l (Nat.le_refl _),
    chunksF_length p hp l.length l (Nat.le_refl _),
    (chunksF_sizes p hp l.length l (Nat.le_refl _)).1,
    (chunksF_sizes p hp l.length l (Nat.le_refl _)).2, ?_, ?_⟩
  · have hcount := chunksF_length p hp l.length l (Nat.le_refl _)
    have hle : l.length ≤ (chunksF l.length p l).length * p := by
      rw [hcount]
      have hdm := Nat.div_add_mod (l.length + p - 1) p
      have hmod := Nat.mod_lt (l.length + p - 1) hp
      rw [Nat.mul_comm]
      generalize hq : p * ((l.length + p - 1) / p) = m at hdm ⊢
      generalize hr : (l.length + p - 1) % p = r at hdm hmod
      omega
    have hnil : l.drop ((chunksF l.length p l).length * p) = [] :=
      List.drop_eq_nil_of_le hle
    show iterNext
      (⟨l, p, 0 + (chunksF l.length p l).length⟩ : IterState Record) = none
    rw [Nat.zero_add]
    simp [iterNext, hnil]
  · intro hne
    have hemp : ((l.take p).isEmpty) = false := by
      simp only [List.isEmpty_eq_false, ne_eq, List.take_eq_nil_iff]
      intro hc
      rcases hc with hc | hc
      · omega
      · exact hne hc
    simp [iterNext, hemp]

/-- C9 witness: twelve records with page size 5 give three batches of sizes
5, 5 and 2, flatten back to the twelve records, and the iterator is then
exhausted. -/
theorem claim_C9_witness :
    (0 < 5 ∧
      ((runBook rec12 5).1.flatten = rec12 ∧
       (runBook rec12 5).1.length = (rec12.length + 5 - 1) / 5 ∧
       (∀ b ∈ (runBook rec12 5).1.dropLast, b.length = 5) ∧
       (∀ b, (runBook rec12 5).1.getLast? = some b →
         b.length = if rec12.length % 5 = 0 then 5 else rec12.length % 5) ∧
       iterNext (runBook rec12 5).2 = none ∧
       (rec12 ≠ [] → iterNext ⟨rec12, 5, 0⟩ = some (rec12.take 5, ⟨rec12, 5, 1⟩)))) ∧
    (runBook rec12 5).1.map List.length = [5, 5, 2] :=
  ⟨⟨by decide, claim_C9_pagination rec12 5 (by decide)⟩, by rfl⟩

end DzWeb
